import Mathlib

/-!
Verification of the rp-spinlockmutex crate: a mutex built on the rp2040
hardware spinlock bank (`src/lib.rs`).

Embedding notes.  The crate wraps an external hardware capability,
`rp2040_hal::sio::Spinlock<N>`, which exposes `claim` (blocking),
`try_claim` (non-blocking) and release-on-drop over a bank of 32
independent hardware locks.  We embed the reachable system state as a
`Machine`: the bank of held bits (`held`) together with the memory that
backs every `UnsafeCell` (`store`, addressed by `Nat` pointers).  A
`SpinlockMutex` value is a cell instance: its compile-time lock number
`nlock` (the const generic `N`) and the address `ptr` of its
`UnsafeCell<T>` storage.  A `SpinlockMutexGuard` is the pair the source
constructs at `lib.rs:115-118`: the claimed `Spinlock` token `_lock` and
the raw pointer `data = self.data.get()`.

Blocking `claim` is embedded as one poll step: `none` means the lock is
currently held elsewhere and the caller is still spinning (it is not an
error result), `some` is the successful acquisition.
-/

/-- PC models one execution context of the counter-race scenario of the
spec (two cores each looping lock / increment / release): `idle` is
outside the critical section, `locked` is immediately after `lock()`
returned a guard, `wrote` is after the increment through the guard. -/
inductive PC where
  | idle
  | locked
  | wrote
deriving DecidableEq, Repr

/-- Spinlock is the proof-of-ownership token returned by a successful
claim of hardware lock number `n` (external collaborator
`rp2040_hal::sio::Spinlock<N>`; the const generic `N` becomes the field
`n`). -/
structure Spinlock where
  n : Nat
deriving DecidableEq, Repr

/-- SpinlockValid mirrors the `Spinlock<N>: SpinlockValid` bound: the
rp2040 has 32 hardware spinlocks, numbered 0 to 31. -/
def SpinlockValid (n : Nat) : Prop := n < 32

/-- Machine is the system-wide state the crate acts on: the hardware
spinlock bank (`held n = true` iff lock number `n` is currently
claimed) and the memory backing every `UnsafeCell` (`store`, addressed
by `Nat` pointers; all cells of one verification run share the value
type `T`). -/
structure Machine (T : Type) where
  held : Nat → Bool
  store : Nat → T

namespace Spinlock

/-- Non-blocking claim attempt of hardware lock `n`
(`Spinlock::<N>::try_claim`): if the lock is held it returns `none` and
leaves the state unchanged; otherwise it sets the held bit and returns
the ownership token. -/
def try_claim {T : Type} (n : Nat) (st : Machine T) :
    Option (Spinlock × Machine T) :=
  if st.held n then none
  else some (⟨n⟩, { st with held := fun k => if k = n then true else st.held k })

/-- Blocking claim of hardware lock `n` (`Spinlock::<N>::claim`), which
spins on `try_claim` until it succeeds.  Embedded as a single poll:
`none` means the caller is still spinning (the lock is held elsewhere),
never an error. -/
def claim {T : Type} (n : Nat) (st : Machine T) :
    Option (Spinlock × Machine T) :=
  if st.held n then none
  else some (⟨n⟩, { st with held := fun k => if k = n then true else st.held k })

/-- Releasing the ownership token (the `Drop` impl of
`rp2040_hal::sio::Spinlock<N>`) clears the held bit of lock `c.n`. -/
def release {T : Type} (c : Spinlock) (st : Machine T) : Machine T :=
  { st with held := fun k => if k = c.n then false else st.held k }

end Spinlock

/-- SpinlockMutex is one cell instance (`lib.rs:65-70`): `nlock` is the
const generic lock number `N` and `ptr` is the address of its private
`data: UnsafeCell<T>` field inside `store`. -/
structure SpinlockMutex where
  nlock : Nat
  ptr : Nat
deriving DecidableEq, Repr

/-- SpinlockMutexGuard (`lib.rs:140-146`): the claimed hardware token
`_lock: Spinlock<N>` and the raw pointer `data: *mut T` obtained from
`self.data.get()`. -/
structure SpinlockMutexGuard where
  _lock : Spinlock
  data : Nat
deriving DecidableEq, Repr

namespace SpinlockMutexGuard

/-- Drop glue of the guard: `SpinlockMutexGuard` has no manual `Drop`
impl, so dropping it drops its `_lock` field, whose `Drop` releases the
hardware spinlock.  The `data` pointer is not touched. -/
def drop {T : Type} (g : SpinlockMutexGuard) (st : Machine T) : Machine T :=
  Spinlock.release g._lock st

/-- Read through the guard (`Deref::deref`, `lib.rs:157-161`): returns
the value behind the raw pointer `self.data`. -/
def deref {T : Type} (g : SpinlockMutexGuard) (st : Machine T) : T :=
  st.store g.data

/-- Write through the guard (`DerefMut::deref_mut`, `lib.rs:168-172`,
followed by a store through the returned `&mut T`): updates the value
behind the raw pointer `self.data`. -/
def deref_mut {T : Type} (g : SpinlockMutexGuard) (v : T) (st : Machine T) :
    Machine T :=
  { st with store := fun k => if k = g.data then v else st.store k }

end SpinlockMutexGuard

namespace SpinlockMutex

/-- Constructor (`const fn new`, `lib.rs:88-92`): places a cell using
lock number `n` at a fresh address `p`, storing exactly `v`
(`UnsafeCell::new(data)`).  No hardware interaction: the `held` bank is
not read or written. -/
def new {T : Type} (n p : Nat) (v : T) (st : Machine T) :
    SpinlockMutex × Machine T :=
  (⟨n, p⟩, { st with store := fun k => if k = p then v else st.store k })

/-- Blocking lock (`lib.rs:114-119`): claims `Spinlock::<N>` and bundles
the token with the raw pointer `self.data.get()` into a guard.  `none`
means the caller is still spinning. -/
def lock {T : Type} (m : SpinlockMutex) (st : Machine T) :
    Option (SpinlockMutexGuard × Machine T) :=
  (Spinlock.claim m.nlock st).map fun cs =>
    ({ _lock := cs.1, data := m.ptr }, cs.2)

/-- Non-blocking lock (`lib.rs:121-126`): `Spinlock::<N>::try_claim()`
mapped over the same guard construction as `lock`. -/
def try_lock {T : Type} (m : SpinlockMutex) (st : Machine T) :
    Option (SpinlockMutexGuard × Machine T) :=
  (Spinlock.try_claim m.nlock st).map fun cs =>
    ({ _lock := cs.1, data := m.ptr }, cs.2)

/-- Explicit unlock (`lib.rs:129-131`): an associated function, no
`self` receiver; its whole body is `core::mem::drop(guard)`, i.e. the
guard's drop glue. -/
def unlock {T : Type} (g : SpinlockMutexGuard) (st : Machine T) : Machine T :=
  SpinlockMutexGuard.drop g st

end SpinlockMutex

/-- LockOp is one acquisition or release call on cells of the machine,
with no guard dereference in between; used to state the frame property
of the lock path. -/
inductive LockOp where
  | lockOp (m : SpinlockMutex)
  | tryLockOp (m : SpinlockMutex)
  | unlockOp (g : SpinlockMutexGuard)
deriving DecidableEq, Repr

/-- Runs one lock-path call on the machine.  When a blocking `lock` has
not yet acquired (still spinning) or a `try_lock` fails, the state is
unchanged. -/
def runOp {T : Type} (op : LockOp) (st : Machine T) : Machine T :=
  match op with
  | .lockOp m =>
    match SpinlockMutex.lock m st with
    | some r => r.2
    | none => st
  | .tryLockOp m =>
    match SpinlockMutex.try_lock m st with
    | some r => r.2
    | none => st
  | .unlockOp g => SpinlockMutex.unlock g st

/-- Runs a sequence of lock-path calls left to right. -/
def runOps {T : Type} (ops : List LockOp) (st : Machine T) : Machine T :=
  match ops with
  | [] => st
  | op :: rest => runOps rest (runOp op st)

/-- Race is the counter-race scenario of the spec: two execution
contexts (core 0 = A, core 1 = B) concurrently loop
lock / increment-through-guard / release on one cell.  `owner` is the
hardware arbitration state of the shared lock number: `none` when free,
`some false` (resp. `some true`) while core A (resp. B) holds the
claim — the hardware grants at most one claim, which is exactly what the
source's safety comments rely on.  `value` is the protected counter,
`doneA`/`doneB` count completed iterations (each ending in a release). -/
structure Race where
  owner : Option Bool
  value : Nat
  pcA : PC
  pcB : PC
  doneA : Nat
  doneB : Nat
deriving DecidableEq, Repr

/-- Label names the atomic actions of the race scenario. -/
inductive Label where
  | acquireA
  | writeA
  | releaseA
  | acquireB
  | writeB
  | releaseB
deriving DecidableEq, Repr

/-- Step is the interleaving semantics of the two increment loops over
the shared cell; `tA` and `tB` are the iteration targets of the loops.
An acquire is a successful `lock()` (the hardware grants the claim only
when no claim is live), a write is the increment through the guard's
mutable dereference, a release is the guard going out of scope at the
end of the loop body. -/
inductive Step (tA tB : Nat) : Label → Race → Race → Prop where
  | acquireA (s : Race) (h1 : s.pcA = PC.idle) (h2 : s.doneA < tA)
      (h3 : s.owner = none) :
      Step tA tB Label.acquireA s
        { s with owner := some false, pcA := PC.locked }
  | writeA (s : Race) (h1 : s.pcA = PC.locked) :
      Step tA tB Label.writeA s
        { s with value := s.value + 1, pcA := PC.wrote }
  | releaseA (s : Race) (h1 : s.pcA = PC.wrote) :
      Step tA tB Label.releaseA s
        { s with owner := none, pcA := PC.idle, doneA := s.doneA + 1 }
  | acquireB (s : Race) (h1 : s.pcB = PC.idle) (h2 : s.doneB < tB)
      (h3 : s.owner = none) :
      Step tA tB Label.acquireB s
        { s with owner := some true, pcB := PC.locked }
  | writeB (s : Race) (h1 : s.pcB = PC.locked) :
      Step tA tB Label.writeB s
        { s with value := s.value + 1, pcB := PC.wrote }
  | releaseB (s : Race) (h1 : s.pcB = PC.wrote) :
      Step tA tB Label.releaseB s
        { s with owner := none, pcB := PC.idle, doneB := s.doneB + 1 }

/-- Initial race state: cell freshly constructed with `v0`, lock free,
both contexts idle with no completed iterations. -/
def Race.init (v0 : Nat) : Race :=
  { owner := none, value := v0, pcA := PC.idle, pcB := PC.idle
    doneA := 0, doneB := 0 }

/-- Reach is reachability of the race system from `Race.init v0` under
any interleaving. -/
inductive Reach (v0 tA tB : Nat) : Race → Prop where
  | init : Reach v0 tA tB (Race.init v0)
  | step {s s' : Race} {l : Label} (hr : Reach v0 tA tB s)
      (hs : Step tA tB l s s') : Reach v0 tA tB s'

/-- Context A holds a live guard: it is inside the critical section,
between a successful `lock()` and the guard's release. -/
def holdsGuardA (s : Race) : Prop := s.pcA ≠ PC.idle

/-- Context B holds a live guard. -/
def holdsGuardB (s : Race) : Prop := s.pcB ≠ PC.idle

/-- Pending contribution of a context to the counter: 1 exactly when it
has incremented but not yet released. -/
def wrotePending (pc : PC) : Nat := if pc = PC.wrote then 1 else 0

/-- Inductive invariant of the race system: a context inside its
critical section is the owner recorded by the hardware (so at most one
context is ever inside), and the counter accounts for every completed
iteration plus the pending increments. -/
def RaceInv (v0 : Nat) (s : Race) : Prop :=
  (s.pcA ≠ PC.idle → s.owner = some false) ∧
  (s.pcB ≠ PC.idle → s.owner = some true) ∧
  s.value = v0 + s.doneA + s.doneB + wrotePending s.pcA + wrotePending s.pcB

lemma raceInv_init (v0 : Nat) : RaceInv v0 (Race.init v0) := by
  refine ⟨?_, ?_, ?_⟩ <;> simp [Race.init, wrotePending]

lemma raceInv_step {v0 tA tB : Nat} {l : Label} {s s' : Race}
    (hinv : RaceInv v0 s) (hs : Step tA tB l s s') : RaceInv v0 s' := by
  obtain ⟨hA, hB, hval⟩ := hinv
  cases hs with
  | acquireA s h1 h2 h3 =>
    refine ⟨fun _ => rfl, fun hb => ?_, ?_⟩
    · exact absurd (hB hb) (by simp [h3])
    · simpa [wrotePending, h1] using hval
  | writeA s h1 =>
    refine ⟨fun _ => hA (by simp [h1]), fun hb => hB hb, ?_⟩
    · simp only [wrotePending, h1] at hval ⊢
      simp at hval ⊢
      omega
  | releaseA s h1 =>
    refine ⟨fun ha => absurd rfl ha, fun hb => ?_, ?_⟩
    · exact absurd (hB hb ▸ hA (by simp [h1])) (by simp)
    · simp only [wrotePending, h1] at hval ⊢
      simp at hval ⊢
      omega
  | acquireB s h1 h2 h3 =>
    refine ⟨fun ha => ?_, fun _ => rfl, ?_⟩
    · exact absurd (hA ha) (by simp [h3])
    · simpa [wrotePending, h1] using hval
  | writeB s h1 =>
    refine ⟨fun ha => hA ha, fun _ => hB (by simp [h1]), ?_⟩
    · simp only [wrotePending, h1] at hval ⊢
      simp at hval ⊢
      omega
  | releaseB s h1 =>
    refine ⟨fun ha => ?_, fun hb => absurd rfl hb, ?_⟩
    · exact absurd (hA ha ▸ hB (by simp [h1])) (by simp)
    · simp only [wrotePending, h1] at hval ⊢
      simp at hval ⊢
      omega

lemma raceInv_reach {v0 tA tB : Nat} {s : Race}
    (hr : Reach v0 tA tB s) : RaceInv v0 s := by
  induction hr with
  | init => exact raceInv_init v0
  | step hr hs ih => exact raceInv_step ih hs

/-- C4: `SpinlockMutex::new(v)` stores exactly `v` as the protected
value, performs no hardware interaction (the spinlock bank `held` is
untouched), and always succeeds (it is a total, computable constructor,
matching the `const fn`). -/
theorem new_spec (T : Type) (n p : Nat) (v : T) (st : Machine T) :
    ((SpinlockMutex.new n p v st).2).store ((SpinlockMutex.new n p v st).1).ptr = v ∧
    ((SpinlockMutex.new n p v st).2).held = st.held ∧
    ((SpinlockMutex.new n p v st).1).nlock = n ∧
    ((SpinlockMutex.new n p v st).1).ptr = p := by
  refine ⟨?_, rfl, rfl, rfl⟩
  simp [SpinlockMutex.new]

/-- C5: while lock number `N` is held elsewhere, `lock()` keeps the
caller blocked (the poll yields no result, never an error); as soon as
the lock is free, the poll succeeds and returns a guard bundling a
`Spinlock` claim for exactly `N` with the pointer to the stored value,
which still reads the cell's current value. -/
theorem lock_spec (T : Type) (m : SpinlockMutex) (st : Machine T)
    (_hv : SpinlockValid m.nlock) :
    (st.held m.nlock = false →
      ∃ g st', SpinlockMutex.lock m st = some (g, st') ∧
        g._lock.n = m.nlock ∧ g.data = m.ptr ∧
        st'.held m.nlock = true ∧ st'.store = st.store ∧
        SpinlockMutexGuard.deref g st' = st.store m.ptr) ∧
    (st.held m.nlock = true → SpinlockMutex.lock m st = none) := by
  constructor
  · intro h
    refine ⟨⟨⟨m.nlock⟩, m.ptr⟩,
      { st with held := fun k => if k = m.nlock then true else st.held k },
      ?_, rfl, rfl, ?_, rfl, rfl⟩
    · simp [SpinlockMutex.lock, Spinlock.claim, h]
    · simp
  · intro h
    simp [SpinlockMutex.lock, Spinlock.claim, h]

/-- Witness for lock_spec at lock number 7 on a free machine. -/
theorem lock_spec_witness :
    (Machine.held ⟨fun _ => false, fun _ => (5 : Nat)⟩ 7 = false) ∧
    (∃ g st', SpinlockMutex.lock ⟨7, 0⟩
        (⟨fun _ => false, fun _ => (5 : Nat)⟩ : Machine Nat) = some (g, st') ∧
      g._lock.n = SpinlockMutex.nlock ⟨7, 0⟩ ∧
      g.data = SpinlockMutex.ptr ⟨7, 0⟩ ∧
      st'.held (SpinlockMutex.nlock ⟨7, 0⟩) = true ∧
      st'.store = Machine.store ⟨fun _ => false, fun _ => (5 : Nat)⟩ ∧
      SpinlockMutexGuard.deref g st' =
        Machine.store ⟨fun _ => false, fun _ => (5 : Nat)⟩
          (SpinlockMutex.ptr ⟨7, 0⟩)) :=
  ⟨rfl, (lock_spec Nat ⟨7, 0⟩ ⟨fun _ => false, fun _ => (5 : Nat)⟩
    (by show (7 : Nat) < 32; decide)).1 rfl⟩

/-- C3: `try_lock()` returns `none` immediately (state unchanged, no
blocking poll loop) when lock number `N` is currently held, and
otherwise returns exactly what a successful `lock()` returns. -/
theorem try_lock_spec (T : Type) (m : SpinlockMutex) (st : Machine T) :
    (st.held m.nlock = true → SpinlockMutex.try_lock m st = none) ∧
    (st.held m.nlock = false →
      SpinlockMutex.try_lock m st = SpinlockMutex.lock m st ∧
      (SpinlockMutex.try_lock m st).isSome = true) := by
  constructor
  · intro h
    simp [SpinlockMutex.try_lock, Spinlock.try_claim, h]
  · intro h
    refine ⟨rfl, ?_⟩
    simp [SpinlockMutex.try_lock, Spinlock.try_claim, h]

/-- Witness for try_lock_spec: a held machine yields none, a free
machine yields the same result as lock. -/
theorem try_lock_spec_witness :
    SpinlockMutex.try_lock ⟨7, 0⟩
        (⟨fun _ => true, fun _ => (5 : Nat)⟩ : Machine Nat) = none ∧
    SpinlockMutex.try_lock ⟨7, 0⟩
        (⟨fun _ => false, fun _ => (5 : Nat)⟩ : Machine Nat) =
      SpinlockMutex.lock ⟨7, 0⟩ ⟨fun _ => false, fun _ => (5 : Nat)⟩ :=
  ⟨(try_lock_spec Nat ⟨7, 0⟩ ⟨fun _ => true, fun _ => (5 : Nat)⟩).1 rfl,
   ((try_lock_spec Nat ⟨7, 0⟩ ⟨fun _ => false, fun _ => (5 : Nat)⟩).2 rfl).1⟩

/-- C2: `SpinlockMutex::unlock(guard)` is exactly the guard's drop glue
(the source's body is `core::mem::drop(guard)`), so it is semantically
identical to the guard going out of scope at that point: the hardware
lock is released immediately (held bit cleared, so the next `lock()` or
`try_lock()` on that number succeeds) and the protected value is
untouched. -/
theorem unlock_spec (T : Type) (g : SpinlockMutexGuard) (st : Machine T) :
    SpinlockMutex.unlock g st = SpinlockMutexGuard.drop g st ∧
    (SpinlockMutex.unlock g st).held g._lock.n = false ∧
    (SpinlockMutex.unlock g st).store = st.store ∧
    (∀ m : SpinlockMutex, m.nlock = g._lock.n →
      (SpinlockMutex.lock m (SpinlockMutex.unlock g st)).isSome = true ∧
      (SpinlockMutex.try_lock m (SpinlockMutex.unlock g st)).isSome = true) := by
  refine ⟨rfl, ?_, rfl, ?_⟩
  · simp [SpinlockMutex.unlock, SpinlockMutexGuard.drop, Spinlock.release]
  · intro m hm
    constructor
    · simp [SpinlockMutex.lock, Spinlock.claim, SpinlockMutex.unlock,
        SpinlockMutexGuard.drop, Spinlock.release, hm]
    · simp [SpinlockMutex.try_lock, Spinlock.try_claim, SpinlockMutex.unlock,
        SpinlockMutexGuard.drop, Spinlock.release, hm]

/-- Witness for unlock_spec: a guard for lock 7 on a machine where lock
7 is held; after unlock the same lock number can be locked again. -/
theorem unlock_spec_witness :
    SpinlockMutex.unlock ⟨⟨7⟩, 0⟩
        (⟨fun _ => true, fun _ => (5 : Nat)⟩ : Machine Nat) =
      SpinlockMutexGuard.drop ⟨⟨7⟩, 0⟩ ⟨fun _ => true, fun _ => (5 : Nat)⟩ ∧
    (SpinlockMutex.lock ⟨7, 0⟩ (SpinlockMutex.unlock ⟨⟨7⟩, 0⟩
        (⟨fun _ => true, fun _ => (5 : Nat)⟩ : Machine Nat))).isSome = true :=
  ⟨(unlock_spec Nat ⟨⟨7⟩, 0⟩ ⟨fun _ => true, fun _ => (5 : Nat)⟩).1,
   ((unlock_spec Nat ⟨⟨7⟩, 0⟩ ⟨fun _ => true, fun _ => (5 : Nat)⟩).2.2.2
      ⟨7, 0⟩ rfl).1⟩

/-- C1: in every reachable state of the two-context race system, at
most one live guard for the shared lock number exists (the two contexts
are never simultaneously inside their critical sections), and when both
increment loops have completed their iterations the protected counter
equals exactly the expected sum, with no lost updates. -/
theorem mutual_exclusion_counter (v0 tA tB : Nat) (s : Race)
    (h : Reach v0 tA tB s) :
    ¬(holdsGuardA s ∧ holdsGuardB s) ∧
    (s.pcA = PC.idle → s.pcB = PC.idle → s.doneA = tA → s.doneB = tB →
      s.value = v0 + tA + tB) := by
  obtain ⟨hA, hB, hval⟩ := raceInv_reach h
  constructor
  · rintro ⟨ha, hb⟩
    have h1 := hA ha
    have h2 := hB hb
    rw [h1] at h2
    simp at h2
  · intro ha hb hdA hdB
    rw [ha, hb] at hval
    simp [wrotePending] at hval
    omega

/-- Witness for mutual_exclusion_counter: the concrete interleaving
where each of the two contexts runs one full lock / increment / release
iteration from initial value 0, ending with counter 2. -/
theorem mutual_exclusion_counter_witness :
    ¬(holdsGuardA ⟨none, 2, PC.idle, PC.idle, 1, 1⟩ ∧
      holdsGuardB ⟨none, 2, PC.idle, PC.idle, 1, 1⟩) ∧
    Race.value ⟨none, 2, PC.idle, PC.idle, 1, 1⟩ = 0 + 1 + 1 := by
  have r0 : Reach 0 1 1 (Race.init 0) := Reach.init
  have r1 := Reach.step r0 (Step.acquireA (Race.init 0) rfl (by decide) rfl)
  have r2 := Reach.step r1 (Step.writeA _ rfl)
  have r3 := Reach.step r2 (Step.releaseA _ rfl)
  have r4 := Reach.step r3 (Step.acquireB _ rfl (by decide) rfl)
  have r5 := Reach.step r4 (Step.writeB _ rfl)
  have r6 := Reach.step r5 (Step.releaseB _ rfl)
  have hreach : Reach 0 1 1 ⟨none, 2, PC.idle, PC.idle, 1, 1⟩ := r6
  have h := mutual_exclusion_counter 0 1 1 ⟨none, 2, PC.idle, PC.idle, 1, 1⟩ hreach
  exact ⟨h.1, h.2 rfl rfl rfl rfl⟩

/-- C6: destroying a guard — whether through `SpinlockMutex::unlock` or
through its drop glue at end of scope — releases the embedded claim
(clears the held bit of its lock number), and in the race system a
release happens exactly once per guard instance: directly after a
context's release step that context holds no guard and cannot release
again before acquiring a new one. -/
theorem guard_release_exactly_once :
    (∀ (T : Type) (g : SpinlockMutexGuard) (st : Machine T),
      SpinlockMutex.unlock g st = Spinlock.release g._lock st ∧
      SpinlockMutexGuard.drop g st = Spinlock.release g._lock st ∧
      (SpinlockMutexGuard.drop g st).held g._lock.n = false) ∧
    (∀ (tA tB : Nat) (s s' : Race), Step tA tB Label.releaseA s s' →
      s'.pcA = PC.idle ∧ ∀ s'', ¬ Step tA tB Label.releaseA s' s'') ∧
    (∀ (tA tB : Nat) (s s' : Race), Step tA tB Label.releaseB s s' →
      s'.pcB = PC.idle ∧ ∀ s'', ¬ Step tA tB Label.releaseB s' s'') := by
  refine ⟨?_, ?_, ?_⟩
  · intro T g st
    refine ⟨rfl, rfl, ?_⟩
    simp [SpinlockMutexGuard.drop, Spinlock.release]
  · intro tA tB s s' h
    cases h with
    | releaseA s h1 =>
      refine ⟨rfl, ?_⟩
      intro s'' h'
      cases h' with
      | releaseA _ h2 => simp at h2
  · intro tA tB s s' h
    cases h with
    | releaseB s h1 =>
      refine ⟨rfl, ?_⟩
      intro s'' h'
      cases h' with
      | releaseB _ h2 => simp at h2

/-- Witness for guard_release_exactly_once: a concrete guard release on
a machine, and a concrete release step of context A after which no
second release by A is possible. -/
theorem guard_release_exactly_once_witness :
    SpinlockMutex.unlock ⟨⟨7⟩, 0⟩
        (⟨fun _ => true, fun _ => (5 : Nat)⟩ : Machine Nat) =
      Spinlock.release ⟨7⟩ ⟨fun _ => true, fun _ => (5 : Nat)⟩ ∧
    Race.pcA ⟨none, 1, PC.idle, PC.idle, 1, 0⟩ = PC.idle ∧
    ∀ s'', ¬ Step 1 1 Label.releaseA ⟨none, 1, PC.idle, PC.idle, 1, 0⟩ s'' := by
  have h := guard_release_exactly_once
  have hstep : Step 1 1 Label.releaseA ⟨some false, 1, PC.wrote, PC.idle, 0, 0⟩
      ⟨none, 1, PC.idle, PC.idle, 1, 0⟩ :=
    Step.releaseA ⟨some false, 1, PC.wrote, PC.idle, 0, 0⟩ rfl
  have h2 := h.2.1 1 1 _ _ hstep
  exact ⟨(h.1 Nat ⟨⟨7⟩, 0⟩ ⟨fun _ => true, fun _ => (5 : Nat)⟩).1, h2.1, h2.2⟩

/-- Helper: the exact successful result of `lock` on a free lock. -/
lemma lock_free_eq {T : Type} (m : SpinlockMutex) (st : Machine T)
    (h : st.held m.nlock = false) :
    SpinlockMutex.lock m st = some (⟨⟨m.nlock⟩, m.ptr⟩,
      { st with held := fun k => if k = m.nlock then true else st.held k }) := by
  simp [SpinlockMutex.lock, Spinlock.claim, h]

/-- C7: reading through a freshly acquired guard returns the cell's
current (initial) value; after a write through the guard's mutable
dereference, a read through the same guard returns the written value,
and so does a read through the next guard successfully acquired after
this guard is dropped — no stale or lost values across acquisitions. -/
theorem data_consistency (T : Type) (m : SpinlockMutex) (st : Machine T)
    (hfree : st.held m.nlock = false) (v : T) :
    ∃ g st1, SpinlockMutex.lock m st = some (g, st1) ∧
      SpinlockMutexGuard.deref g st1 = st.store m.ptr ∧
      SpinlockMutexGuard.deref g (SpinlockMutexGuard.deref_mut g v st1) = v ∧
      ∃ g2 st4,
        SpinlockMutex.lock m
          (SpinlockMutexGuard.drop g (SpinlockMutexGuard.deref_mut g v st1)) =
          some (g2, st4) ∧
        SpinlockMutexGuard.deref g2 st4 = v := by
  refine ⟨⟨⟨m.nlock⟩, m.ptr⟩, _, lock_free_eq m st hfree, rfl, ?_, ?_⟩
  · simp [SpinlockMutexGuard.deref, SpinlockMutexGuard.deref_mut]
  · refine ⟨⟨⟨m.nlock⟩, m.ptr⟩, _, lock_free_eq m _ ?_, ?_⟩
    · simp [SpinlockMutexGuard.drop, Spinlock.release,
        SpinlockMutexGuard.deref_mut]
    · simp [SpinlockMutexGuard.deref, SpinlockMutexGuard.deref_mut,
        SpinlockMutexGuard.drop, Spinlock.release]

/-- Witness for data_consistency: cell at lock 7, address 0, initial
value 5, writing 9. -/
theorem data_consistency_witness :
    (Machine.held ⟨fun _ => false, fun _ => (5 : Nat)⟩ 7 = false) ∧
    (∃ g st1, SpinlockMutex.lock ⟨7, 0⟩
        (⟨fun _ => false, fun _ => (5 : Nat)⟩ : Machine Nat) = some (g, st1) ∧
      SpinlockMutexGuard.deref g st1 =
        Machine.store ⟨fun _ => false, fun _ => (5 : Nat)⟩
          (SpinlockMutex.ptr ⟨7, 0⟩) ∧
      SpinlockMutexGuard.deref g (SpinlockMutexGuard.deref_mut g 9 st1) = 9 ∧
      ∃ g2 st4,
        SpinlockMutex.lock ⟨7, 0⟩
          (SpinlockMutexGuard.drop g (SpinlockMutexGuard.deref_mut g 9 st1)) =
          some (g2, st4) ∧
        SpinlockMutexGuard.deref g2 st4 = 9) :=
  ⟨rfl, data_consistency Nat ⟨7, 0⟩ ⟨fun _ => false, fun _ => (5 : Nat)⟩ rfl 9⟩

/-- C8: the cell never hands out the protected value except through a
guard dereference.  Formally, every lock-path operation is insensitive
to the stored value: on two machines with the same spinlock bank but
arbitrarily different stores, `lock` and `try_lock` return the same
guard and the same resulting bank (they succeed or fail together and
the guard carries no value of type T, only the claim and the pointer),
and `unlock` produces the same bank.  Only `deref`/`deref_mut`, which
require a guard, touch the store. -/
theorem guard_only_access (T : Type) (m : SpinlockMutex)
    (st1 st2 : Machine T) (h : st1.held = st2.held) :
    ((SpinlockMutex.lock m st1).map (fun r => (r.1, r.2.held)) =
      (SpinlockMutex.lock m st2).map (fun r => (r.1, r.2.held))) ∧
    ((SpinlockMutex.try_lock m st1).map (fun r => (r.1, r.2.held)) =
      (SpinlockMutex.try_lock m st2).map (fun r => (r.1, r.2.held))) ∧
    (∀ g : SpinlockMutexGuard,
      (SpinlockMutex.unlock g st1).held = (SpinlockMutex.unlock g st2).held) := by
  obtain ⟨b1, s1⟩ := st1
  obtain ⟨b2, s2⟩ := st2
  simp only [Machine.held] at h
  subst h
  refine ⟨?_, ?_, ?_⟩
  · by_cases hb : b1 m.nlock <;>
      simp [SpinlockMutex.lock, Spinlock.claim, hb]
  · by_cases hb : b1 m.nlock <;>
      simp [SpinlockMutex.try_lock, Spinlock.try_claim, hb]
  · intro g
    rfl

/-- Witness for guard_only_access: two machines with equal banks and
different stored values are indistinguishable through the lock path. -/
theorem guard_only_access_witness :
    ((SpinlockMutex.lock ⟨7, 0⟩
        (⟨fun _ => false, fun _ => (5 : Nat)⟩ : Machine Nat)).map
        (fun r => (r.1, r.2.held)) =
      (SpinlockMutex.lock ⟨7, 0⟩
        (⟨fun _ => false, fun _ => (99 : Nat)⟩ : Machine Nat)).map
        (fun r => (r.1, r.2.held))) ∧
    ((SpinlockMutex.try_lock ⟨7, 0⟩
        (⟨fun _ => false, fun _ => (5 : Nat)⟩ : Machine Nat)).map
        (fun r => (r.1, r.2.held)) =
      (SpinlockMutex.try_lock ⟨7, 0⟩
        (⟨fun _ => false, fun _ => (99 : Nat)⟩ : Machine Nat)).map
        (fun r => (r.1, r.2.held))) := by
  have h := guard_only_access Nat ⟨7, 0⟩
    ⟨fun _ => false, fun _ => (5 : Nat)⟩
    ⟨fun _ => false, fun _ => (99 : Nat)⟩ rfl
  exact ⟨h.1, h.2.1⟩

/-- C9: `unlock` is an associated function taking only the guard, no
cell receiver: its result does not depend on which cell created the
guard (the data pointer is ignored; only the embedded claim's lock
number matters), so it releases any guard with a matching lock number
identically — the stated precondition that the guard belongs to this
cell is never checked. -/
theorem unlock_no_receiver (T : Type) (c : Spinlock) (p1 p2 : Nat)
    (st : Machine T) :
    SpinlockMutex.unlock ⟨c, p1⟩ st = SpinlockMutex.unlock ⟨c, p2⟩ st ∧
    (∀ g : SpinlockMutexGuard,
      SpinlockMutex.unlock g st = Spinlock.release g._lock st) :=
  ⟨rfl, fun _ => rfl⟩

/-- C10: acquisition only captures the pointer (the guard returned by
`lock` carries the cell's address and lock number, no value), and any
sequence of lock / try_lock / unlock calls with no guard dereference
leaves every stored value unchanged. -/
theorem lock_path_frame (T : Type) (ops : List LockOp) (st : Machine T) :
    (runOps ops st).store = st.store ∧
    (∀ (m : SpinlockMutex) (g : SpinlockMutexGuard) (st' : Machine T),
      SpinlockMutex.lock m st = some (g, st') →
      g.data = m.ptr ∧ g._lock.n = m.nlock ∧ st'.store = st.store) := by
  constructor
  · induction ops generalizing st with
    | nil => rfl
    | cons op rest ih =>
      have hop : (runOp op st).store = st.store := by
        cases op with
        | lockOp m =>
          by_cases hb : st.held m.nlock <;>
            simp [runOp, SpinlockMutex.lock, Spinlock.claim, hb]
        | tryLockOp m =>
          by_cases hb : st.held m.nlock <;>
            simp [runOp, SpinlockMutex.try_lock, Spinlock.try_claim, hb]
        | unlockOp g => rfl
      calc (runOps (op :: rest) st).store
          = (runOps rest (runOp op st)).store := rfl
        _ = (runOp op st).store := ih (runOp op st)
        _ = st.store := hop
  · intro m g st' hlk
    by_cases hb : st.held m.nlock
    · simp [SpinlockMutex.lock, Spinlock.claim, hb] at hlk
    · simp [SpinlockMutex.lock, Spinlock.claim, hb] at hlk
      obtain ⟨hg, hst⟩ := hlk
      subst hg
      subst hst
      exact ⟨rfl, rfl, rfl⟩

/-- Witness for lock_path_frame: a concrete call sequence (lock, failed
try_lock, unlock, successful try_lock) preserves the store, and a
concrete successful lock captures exactly the cell's pointer. -/
theorem lock_path_frame_witness :
    (runOps [LockOp.lockOp ⟨7, 0⟩, LockOp.tryLockOp ⟨7, 0⟩,
        LockOp.unlockOp ⟨⟨7⟩, 0⟩, LockOp.tryLockOp ⟨7, 0⟩]
      (⟨fun _ => false, fun _ => (5 : Nat)⟩ : Machine Nat)).store =
      Machine.store ⟨fun _ => false, fun _ => (5 : Nat)⟩ ∧
    SpinlockMutexGuard.data ⟨⟨7⟩, 0⟩ = SpinlockMutex.ptr ⟨7, 0⟩ := by
  have h := lock_path_frame Nat
    [LockOp.lockOp ⟨7, 0⟩, LockOp.tryLockOp ⟨7, 0⟩,
      LockOp.unlockOp ⟨⟨7⟩, 0⟩, LockOp.tryLockOp ⟨7, 0⟩]
    ⟨fun _ => false, fun _ => (5 : Nat)⟩
  refine ⟨h.1, ?_⟩
  exact (h.2 ⟨7, 0⟩ ⟨⟨7⟩, 0⟩
    ⟨fun k => if k = 7 then true else false, fun _ => (5 : Nat)⟩ rfl).1
